import Mathlib

/-!
Verification of the material-manager core: the wide-to-long reshaper
(`src/data/transformer.py`) and the deficit engine
(`src/analysis/deficit_analyzer.py`).  Tables are embedded as lists of
row structures; pandas operations (melt, filter chains, outer merge,
groupby) are embedded as the corresponding list transformations.
-/

namespace MaterialManager

/-- Cell values of the wide input table: a missing value (NaN/None), a raw
string, or a numeric value (rationals stand in for Python floats). -/
inductive Cell where
  | null : Cell
  | str (s : String) : Cell
  | num (q : Rat) : Cell
deriving DecidableEq

/-- Digit test used by the numeral parser. -/
def isDigitChar (c : Char) : Bool := decide ('0' ≤ c) && decide (c ≤ '9')

/-- Parse a non-empty all-digit character list as a natural number. -/
def parseDigits (l : List Char) : Option Nat :=
  if l.isEmpty then none
  else if l.all isDigitChar then
    some (l.foldl (fun n c => n * 10 + (c.toNat - '0'.toNat)) 0)
  else none

/-- Parse an optional digit list (empty parses as 0, used around a decimal
point as in "1." or ".5"). -/
def parseDigits0 (l : List Char) : Option Nat :=
  if l.isEmpty then some 0 else parseDigits l

/-- Numeral parser standing in for `pd.to_numeric` on strings: optional
sign, integer part, optional fractional part.  Anything else coerces to
NaN (`none`). -/
def parseNum (s : String) : Option Rat :=
  let l := s.data
  let sign : Rat := if l.head? = some '-' then -1 else 1
  let l := if l.head? = some '-' ∨ l.head? = some '+' then l.tail else l
  let intPart := l.takeWhile (fun c => c ≠ '.')
  let rest := l.dropWhile (fun c => c ≠ '.')
  match rest with
  | [] => (parseDigits intPart).map (fun n => sign * n)
  | _ :: frac =>
    if frac.contains '.' then none
    else if intPart.isEmpty && frac.isEmpty then none
    else match parseDigits0 intPart, parseDigits0 frac with
      | some ip, some fp => some (sign * (ip + (fp : Rat) / (10 : Rat) ^ frac.length))
      | _, _ => none

/-- Coercion of a cell to a number, as `pd.to_numeric(errors = "coerce")`:
numbers pass through, strings are parsed, missing values stay missing. -/
def cellToNum : Cell → Option Rat
  | Cell.null => none
  | Cell.str s => parseNum s
  | Cell.num q => some q

/-- Model of the regex test `str.match(".*-[UC]$")` on a column name,
with Python `re` semantics: `.` never crosses a newline and `$` matches
at the end of the string or just before one final newline.  So the name
must be a newline-free prefix, then "-U" or "-C", optionally followed by
a single trailing newline. -/
def colKind (s : String) : Option Char :=
  match s.data.reverse with
  | '\n' :: c :: '-' :: rest =>
    if (c = 'U' ∨ c = 'C') ∧ rest.contains '\n' = false then some c else none
  | c :: '-' :: rest =>
    if (c = 'U' ∨ c = 'C') ∧ rest.contains '\n' = false then some c else none
  | _ => none

/-- Boolean form of the column-name match test. -/
def endsUC (s : String) : Bool := (colKind s).isSome

/-- The anchored suffix pattern `-[UC]$` alone (as used by the replace
and extract calls): "-U"/"-C" at the end of the string or just before a
single trailing newline, with no constraint on the prefix. -/
def suffixUC (s : String) : Option Char :=
  match s.data.reverse with
  | '\n' :: c :: '-' :: _ => if c = 'U' ∨ c = 'C' then some c else none
  | c :: '-' :: _ => if c = 'U' ∨ c = 'C' then some c else none
  | _ => none

/-- Model of `str.replace("-[UC]$", "")`: remove the matched "-U"/"-C",
keeping a trailing newline when `$` matched just before it. -/
def colStore (s : String) : String :=
  match s.data.reverse with
  | '\n' :: c :: '-' :: rest =>
    if c = 'U' ∨ c = 'C' then String.mk (rest.reverse ++ ['\n']) else s
  | c :: '-' :: rest =>
    if c = 'U' ∨ c = 'C' then String.mk rest.reverse else s
  | _ => s

/-- Model of `str.extract("-([UC])$")`: the kind letter as a string. -/
def colKindStr (s : String) : String :=
  match suffixUC s with
  | some c => String.mk [c]
  | none => ""

/-- A row of the melted (unpivoted) table: item key, original column name,
raw cell value. -/
structure MeltRow where
  nomenclature : String
  magasin_code : String
  quantite : Cell
deriving DecidableEq

/-- A melted row after numeric coercion of the cell. -/
structure CoercedRow where
  nomenclature : String
  magasin_code : String
  quantite : Option Rat
deriving DecidableEq

/-- A row of the long table produced by the reshaper. -/
structure LongRow where
  nomenclature : String
  magasin : String
  magasin_code : String
  type_donnee : String
  quantite : Rat
deriving DecidableEq

/-- A wide input table: the first column holds the item keys; the
remaining columns are named by `store_cols`, and each row pairs its item
key with the cells under those columns. -/
structure WideTable where
  key_col : String
  store_cols : List String
  rows : List (String × List Cell)
deriving DecidableEq

/-- Model of `pd.melt` with the first column as `id_vars`: column-major
enumeration of every (row, store-column) cell. -/
def melt (w : WideTable) : List MeltRow :=
  w.store_cols.enum.flatMap (fun jc =>
    w.rows.map (fun rw => ⟨rw.1, jc.2, rw.2.getD jc.1 Cell.null⟩))

/-- Test standing in for `dropna(subset = ["quantite"])` on one cell. -/
def notNullCell : Cell → Bool
  | Cell.null => false
  | _ => true

/-- Test standing in for the blank-string filter on one cell. -/
def notBlankCell : Cell → Bool
  | Cell.str s => !(s == "")
  | _ => true

/-- Test standing in for the strictly-positive filter after coercion. -/
def posQuantite : Option Rat → Bool
  | some q => decide (0 < q)
  | none => false

/-- Model of `InventoryTransformer._clean_data`: drop nulls, drop blank
strings, keep only "-U"/"-C" columns, coerce to numeric, drop coercion
failures, keep strictly positive quantities. -/
def clean_data (l : List MeltRow) : List CoercedRow :=
  let l1 := l.filter (fun r => notNullCell r.quantite)
  let l2 := l1.filter (fun r => notBlankCell r.quantite)
  let l3 := l2.filter (fun r => endsUC r.magasin_code)
  let l4 := l3.map (fun r => CoercedRow.mk r.nomenclature r.magasin_code (cellToNum r.quantite))
  let l5 := l4.filter (fun r => r.quantite.isSome)
  l5.filter (fun r => posQuantite r.quantite)

/-- Model of `InventoryTransformer._extract_magasin_info` on one row:
derive the store name and the kind from the column name. -/
def extract_magasin_info (r : CoercedRow) : LongRow :=
  ⟨r.nomenclature, colStore r.magasin_code, r.magasin_code,
   colKindStr r.magasin_code, r.quantite.getD 0⟩

/-- The long table built from a wide table (the successful path of
`transform_to_long`). -/
def longOut (w : WideTable) : List LongRow :=
  (clean_data (melt w)).map extract_magasin_info

/-- Model of `InventoryTransformer.transform_to_long`: error on an empty
input table; error when the first column bears one of the names the
pipeline itself creates ("quantite" and "magasin_code" collide inside
`pd.melt`, while "magasin" and "type_donnee" are overwritten by the
derived store/kind columns and then missing at the final column
selection — each path raises and is wrapped as
DataTransformationError); otherwise melt, clean, and derive store
information. -/
def transform_to_long (w : WideTable) : Except String (List LongRow) :=
  if w.rows.isEmpty then Except.error "DataFrame vide fourni pour transformation"
  else if w.key_col = "quantite" ∨ w.key_col = "magasin_code" ∨
      w.key_col = "magasin" ∨ w.key_col = "type_donnee" then
    Except.error "Erreur lors de la transformation"
  else Except.ok (longOut w)

/-- Record produced by one wide-table cell, written from the spec: a cell
yields a record exactly when its column name ends in "-U"/"-C" and the
cell parses as a strictly positive number; store and kind are derived
from the column name. -/
def recordOf (item : String) (col : String) (c : Cell) : Option LongRow :=
  if endsUC col then
    match cellToNum c with
    | some q => if 0 < q then some ⟨item, colStore col, col, colKindStr col, q⟩ else none
    | none => none
  else none

/-- Modelled from the spec (round-trip completeness): the long table a
reader of the spec expects, enumerating the wide table row-major and
keeping exactly the valid positive cells under "-U"/"-C" columns. -/
def specLong (w : WideTable) : List LongRow :=
  w.rows.flatMap (fun rw =>
    w.store_cols.enum.filterMap (fun jc => recordOf rw.1 jc.2 (rw.2.getD jc.1 Cell.null)))

/-- Stable insertion of one element into a list, the base step of the
stable sort standing in for `DataFrame.sort_values`. -/
def insertSorted (le : α → α → Bool) (a : α) : List α → List α
  | [] => [a]
  | b :: t => if le a b then a :: b :: t else b :: insertSorted le a t

/-- Stable insertion sort standing in for `DataFrame.sort_values`. -/
def isort (le : α → α → Bool) : List α → List α
  | [] => []
  | a :: t => insertSorted le a (isort le t)

/-- Lexicographic comparison of character lists by code point. -/
def charListLe : List Char → List Char → Bool
  | [], _ => true
  | _ :: _, [] => false
  | a :: as, b :: bs => if a = b then charListLe as bs else decide (a.toNat < b.toNat)

/-- String comparison used when sorting by store and item names. -/
def strLe (a b : String) : Bool := charListLe a.data b.data

/-- Comparison of rationals as a Bool, for sorting numeric columns. -/
def ratLe (a b : Rat) : Bool := decide (a ≤ b)

/-- A row of the deficit table produced by the analyzer. -/
structure DeficitRow where
  magasin : String
  nomenclature : String
  quantite_exploitation : Rat
  quantite_stock : Rat
  deficit : Rat
deriving DecidableEq

/-- Comparison for `sort_values(["magasin", "nomenclature"])`. -/
def dfLe (a b : DeficitRow) : Bool :=
  if a.magasin = b.magasin then strLe a.nomenclature b.nomenclature
  else strLe a.magasin b.magasin

/-- The stock rows matching an exploitation row on (store, item), as in
the pandas merge on `["magasin", "nomenclature"]`. -/
def stockMatches (stock : List LongRow) (e : LongRow) : List LongRow :=
  stock.filter (fun s => s.magasin == e.magasin && s.nomenclature == e.nomenclature)

/-- Left part of the outer merge: each exploitation row joined with every
matching stock row, or kept alone with stock quantity filled as 0. -/
def mergeLeft (exp stock : List LongRow) : List DeficitRow :=
  exp.flatMap (fun e =>
    if (stockMatches stock e).isEmpty then
      [⟨e.magasin, e.nomenclature, e.quantite, 0, 0 - e.quantite⟩]
    else
      (stockMatches stock e).map (fun s =>
        ⟨e.magasin, e.nomenclature, e.quantite, s.quantite, s.quantite - e.quantite⟩))

/-- Right part of the outer merge: stock rows with no matching
exploitation row, with exploitation quantity filled as 0. -/
def mergeRight (exp stock : List LongRow) : List DeficitRow :=
  (stock.filter (fun s =>
    !(exp.any (fun e => e.magasin == s.magasin && e.nomenclature == s.nomenclature)))).map
    (fun s => ⟨s.magasin, s.nomenclature, 0, s.quantite, s.quantite - 0⟩)

/-- Model of `DeficitAnalyzer._merge_exploitation_stock`: full outer merge
on (store, item), missing quantities filled with 0, deficit = stock −
exploitation, sorted by store then item. -/
def merge_exploitation_stock (exp stock : List LongRow) : List DeficitRow :=
  isort dfLe (mergeLeft exp stock ++ mergeRight exp stock)

/-- Median of a list of rationals, as `pandas.Series.median`: middle of
the sorted values, or the mean of the two middle values. -/
def median (l : List Rat) : Rat :=
  let s := isort ratLe l
  let n := s.length
  if n = 0 then 0
  else if n % 2 = 1 then s.getD (n / 2) 0
  else (s.getD (n / 2 - 1) 0 + s.getD (n / 2) 0) / 2

/-- Model of `DeficitAnalyzer._calculate_deficit_stats`: the summary
dictionary, embedded as an association list in insertion order. -/
def calculate_deficit_stats (l : List DeficitRow) : List (String × Rat) :=
  if l.isEmpty then
    [("total_deficits", 0), ("deficit_total", 0), ("deficit_moyen", 0),
     ("magasins_concernes", 0), ("surplus_total", 0), ("sous_exploitation_total", 0)]
  else
    let nonzero := l.filter (fun r => !(r.deficit == 0))
    let pos := l.filter (fun r => decide (0 < r.deficit))
    let neg := l.filter (fun r => decide (r.deficit < 0))
    [("total_deficits", (nonzero.length : Rat)),
     ("deficit_total", (l.map DeficitRow.deficit).sum),
     ("deficit_moyen", (l.map DeficitRow.deficit).sum / (l.length : Rat)),
     ("deficit_median", median (l.map DeficitRow.deficit)),
     ("magasins_concernes", ((nonzero.map DeficitRow.magasin).dedup.length : Rat)),
     ("surplus_stock_count", (pos.length : Rat)),
     ("surplus_stock_total", (pos.map DeficitRow.deficit).sum),
     ("manque_stock_count", (neg.length : Rat)),
     ("manque_stock_total", |(neg.map DeficitRow.deficit).sum|)]

/-- The two-entry summary returned when both subsets are empty. -/
def zeroSummary : List (String × Rat) :=
  [("total_deficits", 0), ("magasins_concernes", 0)]

/-- Model of `DeficitAnalyzer.analyze_deficits`: error on an empty long
table; empty result when the U and C subsets are both empty; otherwise
the outer merge and its statistics. -/
def analyze_deficits (l : List LongRow) :
    Except String (List DeficitRow × List (String × Rat)) :=
  if l.isEmpty then
    Except.error "DataFrame vide fourni pour analyse des deficits"
  else if (l.filter (fun r => r.type_donnee == "U")).isEmpty &&
      (l.filter (fun r => r.type_donnee == "C")).isEmpty then
    Except.ok ([], zeroSummary)
  else
    Except.ok
      (merge_exploitation_stock
        (l.filter (fun r => r.type_donnee == "U"))
        (l.filter (fun r => r.type_donnee == "C")),
      calculate_deficit_stats
        (merge_exploitation_stock
          (l.filter (fun r => r.type_donnee == "U"))
          (l.filter (fun r => r.type_donnee == "C"))))

/-- Whether an analyzer run raised (returned the error constructor). -/
def isError {ε α : Type} : Except ε α → Bool
  | Except.error _ => true
  | Except.ok _ => false

/-- Round-half-to-even to an integer, as numpy rounding on exact values. -/
def rne (x : Rat) : Int :=
  let f := Rat.floor x
  let r := x - (f : Rat)
  if r < 1 / 2 then f
  else if 1 / 2 < r then f + 1
  else if f % 2 = 0 then f else f + 1

/-- Round to `d` decimal places, as `DataFrame.round(d)`. -/
def roundTo (d : Nat) (x : Rat) : Rat :=
  (rne (x * (10 : Rat) ^ d) : Rat) / (10 : Rat) ^ d

/-- A row of the per-store summary of `get_magasin_summary`. -/
structure MagasinSummaryRow where
  magasin : String
  nb_items : Nat
  deficit_total : Rat
  deficit_moyen : Rat
  total_exploitation : Rat
  total_stock : Rat
  ratio_exp_stock : Rat
deriving DecidableEq

/-- The aggregated row for one store: count, rounded sums and mean of the
deficit column, rounded quantity sums, and the smoothed ratio computed
from the rounded totals. -/
def magasinRow (rows : List DeficitRow) (m : String) : MagasinSummaryRow :=
  let g := rows.filter (fun r => r.magasin == m)
  let te := roundTo 2 ((g.map DeficitRow.quantite_exploitation).sum)
  let ts := roundTo 2 ((g.map DeficitRow.quantite_stock).sum)
  { magasin := m
    nb_items := g.length
    deficit_total := roundTo 2 ((g.map DeficitRow.deficit).sum)
    deficit_moyen := roundTo 2 ((g.map DeficitRow.deficit).sum / (g.length : Rat))
    total_exploitation := te
    total_stock := ts
    ratio_exp_stock := roundTo 3 (te / (ts + 1)) }

/-- Model of `DeficitAnalyzer.get_magasin_summary`: group by store (keys
in ascending order as pandas groupby), aggregate, then sort by total
deficit descending. -/
def get_magasin_summary (rows : List DeficitRow) : List MagasinSummaryRow :=
  let stores := isort strLe (rows.map DeficitRow.magasin).dedup
  isort (fun a b => ratLe b.deficit_total a.deficit_total) (stores.map (magasinRow rows))

/-- The input long table restricted to its U-kind and C-kind rows. -/
def restrictUC (l : List LongRow) : List LongRow :=
  l.filter (fun r => r.type_donnee == "U" || r.type_donnee == "C")

/-- Whether a long row carries the (store, item) pair (m, n). -/
def keyMatch (m n : String) (r : LongRow) : Bool :=
  r.magasin == m && r.nomenclature == n

/-- Whether a deficit row carries the (store, item) pair (m, n). -/
def dkeyMatch (m n : String) (r : DeficitRow) : Bool :=
  r.magasin == m && r.nomenclature == n

/-! Helper lemmas about the stable sort. -/

theorem insertSorted_perm (le : α → α → Bool) (a : α) (l : List α) :
    List.Perm (insertSorted le a l) (a :: l) := by
  induction l with
  | nil => exact List.Perm.refl _
  | cons b t ih =>
    simp only [insertSorted]
    split
    · exact List.Perm.refl _
    · exact (List.Perm.cons b ih).trans (List.Perm.swap a b t)

theorem isort_perm (le : α → α → Bool) (l : List α) : List.Perm (isort le l) l := by
  induction l with
  | nil => exact List.Perm.refl _
  | cons a t ih =>
    exact (insertSorted_perm le a (isort le t)).trans (List.Perm.cons a ih)

theorem mem_isort {le : α → α → Bool} {l : List α} {a : α} :
    a ∈ isort le l ↔ a ∈ l :=
  (isort_perm le l).mem_iff

/-! Helper lemmas about the merge. -/

theorem mem_merge {exp stock : List LongRow} {r : DeficitRow}
    (hr : r ∈ merge_exploitation_stock exp stock) :
    r ∈ mergeLeft exp stock ∨ r ∈ mergeRight exp stock := by
  have h := mem_isort.mp hr
  exact List.mem_append.mp h

theorem mergeLeft_cases {exp stock : List LongRow} {r : DeficitRow}
    (hr : r ∈ mergeLeft exp stock) :
    ∃ e ∈ exp,
      (r = ⟨e.magasin, e.nomenclature, e.quantite, 0, 0 - e.quantite⟩ ∧
        (stockMatches stock e).isEmpty = true) ∨
      (∃ s ∈ stockMatches stock e,
        r = ⟨e.magasin, e.nomenclature, e.quantite, s.quantite, s.quantite - e.quantite⟩) := by
  obtain ⟨e, he, hmem⟩ := List.mem_flatMap.mp hr
  refine ⟨e, he, ?_⟩
  by_cases hms : (stockMatches stock e).isEmpty
  · rw [if_pos hms] at hmem
    exact Or.inl ⟨(List.mem_singleton.mp hmem), hms⟩
  · rw [if_neg hms] at hmem
    obtain ⟨s, hs, hrs⟩ := List.mem_map.mp hmem
    exact Or.inr ⟨s, hs, hrs.symm⟩

theorem mergeRight_cases {exp stock : List LongRow} {r : DeficitRow}
    (hr : r ∈ mergeRight exp stock) :
    ∃ s ∈ stock, r = ⟨s.magasin, s.nomenclature, 0, s.quantite, s.quantite - 0⟩ := by
  obtain ⟨s, hs, hrs⟩ := List.mem_map.mp hr
  exact ⟨s, List.mem_of_mem_filter hs, hrs.symm⟩

theorem deficit_eq_of_mem_merge {exp stock : List LongRow} {r : DeficitRow}
    (hr : r ∈ merge_exploitation_stock exp stock) :
    r.deficit = r.quantite_stock - r.quantite_exploitation := by
  rcases mem_merge hr with hl | hrt
  · obtain ⟨e, -, h⟩ := mergeLeft_cases hl
    rcases h with ⟨rfl, -⟩ | ⟨s, -, rfl⟩ <;> rfl
  · obtain ⟨s, -, rfl⟩ := mergeRight_cases hrt
    rfl

/-! Destructuring the analyzer result. -/

theorem analyze_ok_cases {l : List LongRow} {d : List DeficitRow}
    {s : List (String × Rat)} (h : analyze_deficits l = Except.ok (d, s)) :
    (d = [] ∧ s = zeroSummary ∧
      (l.filter (fun r => r.type_donnee == "U")).isEmpty = true ∧
      (l.filter (fun r => r.type_donnee == "C")).isEmpty = true) ∨
    (d = merge_exploitation_stock
        (l.filter (fun r => r.type_donnee == "U"))
        (l.filter (fun r => r.type_donnee == "C")) ∧
      s = calculate_deficit_stats d) := by
  unfold analyze_deficits at h
  split at h
  · exact absurd h (by simp)
  · split at h
    next hcase =>
      rw [Except.ok.injEq, Prod.mk.injEq] at h
      rw [Bool.and_eq_true] at hcase
      exact Or.inl ⟨h.1.symm, h.2.symm, hcase.1, hcase.2⟩
    next =>
      rw [Except.ok.injEq, Prod.mk.injEq] at h
      exact Or.inr ⟨h.1.symm, h.2.symm ▸ h.1 ▸ rfl⟩

/-- C1: every row of the deficit table built by the Deficit Engine has
`deficit = quantite_stock − quantite_exploitation` (S − E, not E − S). -/
theorem c1_deficit_sign (l : List LongRow) (d : List DeficitRow)
    (s : List (String × Rat)) (h : analyze_deficits l = Except.ok (d, s))
    (r : DeficitRow) (hr : r ∈ d) :
    r.deficit = r.quantite_stock - r.quantite_exploitation := by
  rcases analyze_ok_cases h with ⟨rfl, -, -, -⟩ | ⟨rfl, -⟩
  · cases hr
  · exact deficit_eq_of_mem_merge hr

theorem c1_deficit_sign_witness :
    (⟨"A", "X", 5, 3, -2⟩ : DeficitRow).deficit
      = (⟨"A", "X", 5, 3, -2⟩ : DeficitRow).quantite_stock
        - (⟨"A", "X", 5, 3, -2⟩ : DeficitRow).quantite_exploitation :=
  c1_deficit_sign
    [⟨"X", "A", "A-U", "U", 5⟩, ⟨"X", "A", "A-C", "C", 3⟩]
    [⟨"A", "X", 5, 3, -2⟩]
    (calculate_deficit_stats [⟨"A", "X", 5, 3, -2⟩])
    (by with_unfolding_all rfl)
    ⟨"A", "X", 5, 3, -2⟩
    (by with_unfolding_all decide)

/-- C7: the Deficit Engine errors exactly on the empty long table; a
non-empty table whose U and C subsets are both empty yields the empty
deficit table and the summary whose counts are zero, not an error. -/
theorem c7_empty_error_iff (l : List LongRow) :
    (isError (analyze_deficits l) = true ↔ l = []) ∧
    (l ≠ [] →
      l.filter (fun r => r.type_donnee == "U") = [] →
      l.filter (fun r => r.type_donnee == "C") = [] →
      analyze_deficits l = Except.ok ([], zeroSummary) ∧
      zeroSummary.lookup "total_deficits" = some 0 ∧
      zeroSummary.lookup "magasins_concernes" = some 0) := by
  constructor
  · unfold analyze_deficits
    split
    next hl => simp_all [isError, List.isEmpty_iff]
    next hl =>
      have hne : l ≠ [] := by simpa [List.isEmpty_iff] using hl
      split <;> simp [isError, hne]
  · intro hne hU hC
    have hl : l.isEmpty = false := by
      cases l with
      | nil => exact absurd rfl hne
      | cons a t => rfl
    refine ⟨?_, rfl, rfl⟩
    unfold analyze_deficits
    rw [hl]
    simp only [Bool.false_eq_true, if_false, hU, hC]
    rfl

/-- C10: when all input quantities are strictly positive and no
(store, item, kind) triple repeats, every output row has nonnegative
quantities with at least one side strictly positive, and a zero deficit
happens only when both sides are present with equal quantities. -/
theorem c10_present_sides (l : List LongRow)
    (hpos : ∀ r ∈ l, 0 < r.quantite)
    (hU : ((l.filter (fun r => r.type_donnee == "U")).map
      (fun r => (r.magasin, r.nomenclature))).Nodup)
    (hC : ((l.filter (fun r => r.type_donnee == "C")).map
      (fun r => (r.magasin, r.nomenclature))).Nodup)
    (d : List DeficitRow) (s : List (String × Rat))
    (h : analyze_deficits l = Except.ok (d, s)) (r : DeficitRow) (hr : r ∈ d) :
    0 ≤ r.quantite_exploitation ∧ 0 ≤ r.quantite_stock ∧
    (0 < r.quantite_exploitation ∨ 0 < r.quantite_stock) ∧
    (r.deficit = 0 → 0 < r.quantite_exploitation ∧ 0 < r.quantite_stock ∧
      r.quantite_exploitation = r.quantite_stock) := by
  rcases analyze_ok_cases h with ⟨rfl, -, -, -⟩ | ⟨rfl, -⟩
  · cases hr
  · rcases mem_merge hr with hl | hrt
    · obtain ⟨e, he, hcase⟩ := mergeLeft_cases hl
      have hepos : 0 < e.quantite := hpos e (List.mem_of_mem_filter he)
      rcases hcase with ⟨rfl, -⟩ | ⟨s', hs', rfl⟩
      · refine ⟨le_of_lt hepos, le_refl 0, Or.inl hepos, ?_⟩
        intro h0
        simp only [zero_sub, neg_eq_zero] at h0
        exact absurd h0 (ne_of_gt hepos)
      · have hspos : 0 < s'.quantite :=
          hpos s' (List.mem_of_mem_filter (List.mem_of_mem_filter hs'))
        refine ⟨le_of_lt hepos, le_of_lt hspos, Or.inl hepos, ?_⟩
        intro h0
        have : s'.quantite = e.quantite := by
          have := sub_eq_zero.mp h0
          simpa using this
        exact ⟨hepos, hspos, this.symm⟩
    · obtain ⟨s', hs', rfl⟩ := mergeRight_cases hrt
      have hspos : 0 < s'.quantite := hpos s' (List.mem_of_mem_filter hs')
      refine ⟨le_refl 0, le_of_lt hspos, Or.inr hspos, ?_⟩
      intro h0
      simp only [sub_zero] at h0
      exact absurd h0 (ne_of_gt hspos)

theorem c10_present_sides_witness :
    0 ≤ (⟨"A", "X", 5, 3, -2⟩ : DeficitRow).quantite_exploitation ∧
    0 ≤ (⟨"A", "X", 5, 3, -2⟩ : DeficitRow).quantite_stock ∧
    (0 < (⟨"A", "X", 5, 3, -2⟩ : DeficitRow).quantite_exploitation ∨
      0 < (⟨"A", "X", 5, 3, -2⟩ : DeficitRow).quantite_stock) ∧
    ((⟨"A", "X", 5, 3, -2⟩ : DeficitRow).deficit = 0 →
      0 < (⟨"A", "X", 5, 3, -2⟩ : DeficitRow).quantite_exploitation ∧
      0 < (⟨"A", "X", 5, 3, -2⟩ : DeficitRow).quantite_stock ∧
      (⟨"A", "X", 5, 3, -2⟩ : DeficitRow).quantite_exploitation
        = (⟨"A", "X", 5, 3, -2⟩ : DeficitRow).quantite_stock) :=
  c10_present_sides
    [⟨"X", "A", "A-U", "U", 5⟩, ⟨"X", "A", "A-C", "C", 3⟩]
    (by with_unfolding_all decide)
    (by with_unfolding_all decide)
    (by with_unfolding_all decide)
    [⟨"A", "X", 5, 3, -2⟩]
    (calculate_deficit_stats [⟨"A", "X", 5, 3, -2⟩])
    (by with_unfolding_all rfl)
    ⟨"A", "X", 5, 3, -2⟩
    (by with_unfolding_all decide)

/-- The nonzero-deficit rows are exactly the positive ones plus the
negative ones. -/
theorem countP_deficit_split (l : List DeficitRow) :
    l.countP (fun r => !(r.deficit == 0)) =
      l.countP (fun r => decide (0 < r.deficit))
        + l.countP (fun r => decide (r.deficit < 0)) := by
  induction l with
  | nil => rfl
  | cons r t ih =>
    rw [List.countP_cons, List.countP_cons, List.countP_cons, ih]
    rcases lt_trichotomy r.deficit 0 with hlt | heq | hgt
    · simp [hlt.ne, asymm hlt, hlt]
      try omega
    · simp [heq]
      try omega
    · simp [ne_of_gt hgt, asymm hgt, hgt]
      try omega

/-! Helper lemmas about the reshaper pipeline. -/

theorem recordOf_null (item col : String) : recordOf item col Cell.null = none := by
  unfold recordOf
  split <;> rfl

theorem recordOf_none {c : Cell} (item col : String) (h : cellToNum c = none) :
    recordOf item col c = none := by
  unfold recordOf
  split
  · rw [h]
  · rfl

theorem recordOf_some {item col : String} {c : Cell} {r : LongRow}
    (h : recordOf item col c = some r) :
    endsUC col = true ∧ ∃ q, cellToNum c = some q ∧ 0 < q ∧
      r = ⟨item, colStore col, col, colKindStr col, q⟩ := by
  unfold recordOf at h
  split at h
  next hcol =>
    split at h
    next q hq =>
      split at h
      next hpos =>
        exact ⟨hcol, q, hq, hpos, (Option.some.injEq _ _ ▸ h).symm⟩
      next => exact absurd h (by simp)
    next => exact absurd h (by simp)
  next hcol => exact absurd h (by simp)

theorem notNullCell_eq_false {c : Cell} (h : ¬ notNullCell c) : c = Cell.null := by
  cases c <;> simp_all [notNullCell]

theorem notBlankCell_eq_false {c : Cell} (h1 : notNullCell c)
    (h2 : ¬ notBlankCell c) : c = Cell.str "" := by
  cases c <;> simp_all [notNullCell, notBlankCell]

theorem filter_cons_pos (p : α → Bool) (a : α) (l : List α) (h : p a = true) :
    List.filter p (a :: l) = a :: List.filter p l :=
  List.filter_cons_of_pos h

theorem filter_cons_neg (p : α → Bool) (a : α) (l : List α) (h : ¬ p a = true) :
    List.filter p (a :: l) = List.filter p l :=
  List.filter_cons_of_neg h

theorem filterMap_cons_nil (f : α → Option β) (a : α) (l : List α)
    (h : f a = none) :
    List.filterMap f (a :: l) = List.filterMap f l :=
  List.filterMap_cons_none h

theorem filterMap_cons_val (f : α → Option β) (a : α) (l : List α) (b : β)
    (h : f a = some b) :
    List.filterMap f (a :: l) = b :: List.filterMap f l :=
  List.filterMap_cons_some h

theorem clean_extract_eq (l : List MeltRow) :
    (clean_data l).map extract_magasin_info
      = l.filterMap (fun r => recordOf r.nomenclature r.magasin_code r.quantite) := by
  induction l with
  | nil => rfl
  | cons r t ih =>
    simp only [clean_data] at ih ⊢
    by_cases h1 : notNullCell r.quantite
    · by_cases h2 : notBlankCell r.quantite
      · by_cases h3 : endsUC r.magasin_code
        · cases hnum : cellToNum r.quantite with
          | some q =>
            by_cases hpos : 0 < q
            · have hrec : recordOf r.nomenclature r.magasin_code r.quantite
                  = some ⟨r.nomenclature, colStore r.magasin_code, r.magasin_code,
                      colKindStr r.magasin_code, q⟩ := by
                unfold recordOf
                rw [if_pos h3, hnum]
                simp [hpos]
              rw [filter_cons_pos (fun x : MeltRow => notNullCell x.quantite) r _ h1,
                filter_cons_pos (fun x : MeltRow => notBlankCell x.quantite) r _ h2,
                filter_cons_pos (fun x : MeltRow => endsUC x.magasin_code) r _ h3,
                List.map_cons,
                filter_cons_pos (fun x : CoercedRow => x.quantite.isSome)
                  (CoercedRow.mk r.nomenclature r.magasin_code (cellToNum r.quantite)) _
                  (by simp [hnum]),
                filter_cons_pos (fun x : CoercedRow => posQuantite x.quantite)
                  (CoercedRow.mk r.nomenclature r.magasin_code (cellToNum r.quantite)) _
                  (by simp [posQuantite, hnum, hpos]),
                List.map_cons,
                filterMap_cons_val
                  (fun x : MeltRow => recordOf x.nomenclature x.magasin_code x.quantite)
                  r _ _ hrec, ih]
              simp [extract_magasin_info, hnum]
            · have hrec : recordOf r.nomenclature r.magasin_code r.quantite = none := by
                unfold recordOf
                rw [if_pos h3, hnum]
                simp [hpos]
              rw [filter_cons_pos (fun x : MeltRow => notNullCell x.quantite) r _ h1,
                filter_cons_pos (fun x : MeltRow => notBlankCell x.quantite) r _ h2,
                filter_cons_pos (fun x : MeltRow => endsUC x.magasin_code) r _ h3,
                List.map_cons,
                filter_cons_pos (fun x : CoercedRow => x.quantite.isSome)
                  (CoercedRow.mk r.nomenclature r.magasin_code (cellToNum r.quantite)) _
                  (by simp [hnum]),
                filter_cons_neg (fun x : CoercedRow => posQuantite x.quantite)
                  (CoercedRow.mk r.nomenclature r.magasin_code (cellToNum r.quantite)) _
                  (by simp [posQuantite, hnum, hpos]),
                filterMap_cons_nil
                  (fun x : MeltRow => recordOf x.nomenclature x.magasin_code x.quantite)
                  r _ hrec]
              exact ih
          | none =>
            rw [filter_cons_pos (fun x : MeltRow => notNullCell x.quantite) r _ h1,
              filter_cons_pos (fun x : MeltRow => notBlankCell x.quantite) r _ h2,
              filter_cons_pos (fun x : MeltRow => endsUC x.magasin_code) r _ h3,
              List.map_cons,
              filter_cons_neg (fun x : CoercedRow => x.quantite.isSome)
                (CoercedRow.mk r.nomenclature r.magasin_code (cellToNum r.quantite)) _
                (by simp [hnum]),
              filterMap_cons_nil
                (fun x : MeltRow => recordOf x.nomenclature x.magasin_code x.quantite)
                r _ (recordOf_none _ _ hnum)]
            exact ih
        · rw [filter_cons_pos (fun x : MeltRow => notNullCell x.quantite) r _ h1,
            filter_cons_pos (fun x : MeltRow => notBlankCell x.quantite) r _ h2,
            filter_cons_neg (fun x : MeltRow => endsUC x.magasin_code) r _ h3,
            filterMap_cons_nil
              (fun x : MeltRow => recordOf x.nomenclature x.magasin_code x.quantite)
              r _ (by
                show recordOf r.nomenclature r.magasin_code r.quantite = none
                unfold recordOf
                rw [if_neg (by simpa using h3)])]
          exact ih
      · have hc : r.quantite = Cell.str "" := notBlankCell_eq_false (by simpa using h1) h2
        rw [filter_cons_pos (fun x : MeltRow => notNullCell x.quantite) r _ h1,
          filter_cons_neg (fun x : MeltRow => notBlankCell x.quantite) r _ h2,
          filterMap_cons_nil
            (fun x : MeltRow => recordOf x.nomenclature x.magasin_code x.quantite)
            r _ (by
              show recordOf r.nomenclature r.magasin_code r.quantite = none
              rw [hc]
              exact recordOf_none _ _ rfl)]
        exact ih
    · have hc : r.quantite = Cell.null := notNullCell_eq_false h1
      rw [filter_cons_neg (fun x : MeltRow => notNullCell x.quantite) r _ h1,
        filterMap_cons_nil
          (fun x : MeltRow => recordOf x.nomenclature x.magasin_code x.quantite)
          r _ (by
            show recordOf r.nomenclature r.magasin_code r.quantite = none
            rw [hc]
            exact recordOf_null _ _)]
      exact ih

theorem colKind_cases {s : String} {k : Char} (h : colKind s = some k) :
    (k = 'U' ∨ k = 'C') ∧
    ((∃ l : List Char, s.data = l ++ ['-', k] ∧ colStore s = String.mk l ∧
        colKindStr s = String.mk [k]) ∨
      (∃ l : List Char, s.data = l ++ ['-', k, '\n'] ∧
        colStore s = String.mk (l ++ ['\n']) ∧
        colKindStr s = String.mk [k])) := by
  unfold colKind at h
  split at h
  next c rest heq =>
    split at h
    next hcond =>
      rw [Option.some.injEq] at h
      rw [h] at heq hcond
      have hdata : s.data = rest.reverse ++ ['-', k, '\n'] := by
        have h3 := congrArg List.reverse heq
        simpa using h3
      refine ⟨hcond.1, Or.inr ⟨rest.reverse, hdata, ?_, ?_⟩⟩
      · unfold colStore
        rw [heq]
        rcases hcond.1 with rfl | rfl <;> rfl
      · unfold colKindStr suffixUC
        rw [heq]
        rcases hcond.1 with rfl | rfl <;> rfl
    next => exact absurd h (by simp)
  next ch rest hno heq =>
    split at h
    next hcond =>
      rw [Option.some.injEq] at h
      rw [h] at heq hcond
      have hdata : s.data = rest.reverse ++ ['-', k] := by
        have h3 := congrArg List.reverse heq
        simpa using h3
      refine ⟨hcond.1, Or.inl ⟨rest.reverse, hdata, ?_, ?_⟩⟩
      · unfold colStore
        rw [heq]
        rcases hcond.1 with rfl | rfl <;> rfl
      · unfold colKindStr suffixUC
        rw [heq]
        rcases hcond.1 with rfl | rfl <;> rfl
    next => exact absurd h (by simp)
  next => exact absurd h (by simp)

theorem store_kind_append {s : String} (h : endsUC s = true)
    (hnl : s.data.getLast? ≠ some '\n') :
    colStore s ++ "-" ++ colKindStr s = s := by
  unfold endsUC at h
  obtain ⟨c, hc⟩ := Option.isSome_iff_exists.mp h
  obtain ⟨-, hcase⟩ := colKind_cases hc
  rcases hcase with ⟨l, hdata, hstore, hkind⟩ | ⟨l, hdata, hstore, hkind⟩
  · rw [hstore, hkind]
    apply String.ext
    have hdash : ("-" : String).data = ['-'] := rfl
    simp [String.data_append, hdata, hdash]
  · exfalso
    apply hnl
    rw [hdata]
    rw [show l ++ ['-', c, '\n'] = (l ++ ['-', c]) ++ ['\n'] by simp]
    exact List.getLast?_concat _

/-- C6: over a non-empty deficit table, the summary's total_deficits
equals surplus_count plus shortfall_count, that sum is at most the row
count, surplus_total is the sum of positive deficits, and shortfall_total
is the absolute value of the sum of negative deficits. -/
theorem c6_summary_consistency (d : List DeficitRow) (hne : d ≠ []) :
    (calculate_deficit_stats d).lookup "total_deficits"
      = some (((d.countP (fun r => decide (0 < r.deficit))
          + d.countP (fun r => decide (r.deficit < 0)) : Nat) : Rat)) ∧
    d.countP (fun r => decide (0 < r.deficit))
        + d.countP (fun r => decide (r.deficit < 0)) ≤ d.length ∧
    (calculate_deficit_stats d).lookup "surplus_stock_count"
      = some ((d.countP (fun r => decide (0 < r.deficit)) : Rat)) ∧
    (calculate_deficit_stats d).lookup "manque_stock_count"
      = some ((d.countP (fun r => decide (r.deficit < 0)) : Rat)) ∧
    (calculate_deficit_stats d).lookup "surplus_stock_total"
      = some (((d.filter (fun r => decide (0 < r.deficit))).map DeficitRow.deficit).sum) ∧
    (calculate_deficit_stats d).lookup "manque_stock_total"
      = some |((d.filter (fun r => decide (r.deficit < 0))).map DeficitRow.deficit).sum| := by
  have hne' : d.isEmpty = false := by
    cases d with
    | nil => exact absurd rfl hne
    | cons a t => rfl
  have hsplit := countP_deficit_split d
  have hlen : ∀ p : DeficitRow → Bool, (d.filter p).length = d.countP p := by
    intro p
    exact (List.countP_eq_length_filter p d).symm
  unfold calculate_deficit_stats
  rw [hne']
  simp only [Bool.false_eq_true, if_false, List.lookup]
  refine ⟨?_, ?_, ?_, ?_, ?_, ?_⟩
  · simp only [hlen]
    rw [hsplit]
    rfl
  · rw [← hsplit]
    exact List.countP_le_length _
  · simp only [hlen]
    rfl
  · simp only [hlen]
    rfl
  · rfl
  · rfl

theorem c6_summary_consistency_witness :
    (calculate_deficit_stats [⟨"A", "X", 5, 3, -2⟩]).lookup "total_deficits"
      = some ((([⟨"A", "X", 5, 3, -2⟩] : List DeficitRow).countP (fun r => decide (0 < r.deficit))
          + ([⟨"A", "X", 5, 3, -2⟩] : List DeficitRow).countP (fun r => decide (r.deficit < 0)) : Nat)) ∧
    ([⟨"A", "X", 5, 3, -2⟩] : List DeficitRow).countP (fun r => decide (0 < r.deficit))
        + ([⟨"A", "X", 5, 3, -2⟩] : List DeficitRow).countP (fun r => decide (r.deficit < 0))
        ≤ ([⟨"A", "X", 5, 3, -2⟩] : List DeficitRow).length ∧
    (calculate_deficit_stats [⟨"A", "X", 5, 3, -2⟩]).lookup "surplus_stock_count"
      = some ((([⟨"A", "X", 5, 3, -2⟩] : List DeficitRow).countP (fun r => decide (0 < r.deficit)) : Rat)) ∧
    (calculate_deficit_stats [⟨"A", "X", 5, 3, -2⟩]).lookup "manque_stock_count"
      = some ((([⟨"A", "X", 5, 3, -2⟩] : List DeficitRow).countP (fun r => decide (r.deficit < 0)) : Rat)) ∧
    (calculate_deficit_stats [⟨"A", "X", 5, 3, -2⟩]).lookup "surplus_stock_total"
      = some (((([⟨"A", "X", 5, 3, -2⟩] : List DeficitRow).filter
          (fun r => decide (0 < r.deficit))).map DeficitRow.deficit).sum) ∧
    (calculate_deficit_stats [⟨"A", "X", 5, 3, -2⟩]).lookup "manque_stock_total"
      = some |((([⟨"A", "X", 5, 3, -2⟩] : List DeficitRow).filter
          (fun r => decide (r.deficit < 0))).map DeficitRow.deficit).sum| :=
  c6_summary_consistency [⟨"A", "X", 5, 3, -2⟩] (by simp)

theorem c7_empty_error_iff_witness :
    analyze_deficits [⟨"X", "A", "A-Z", "Z", 1⟩] = Except.ok ([], zeroSummary) ∧
    zeroSummary.lookup "total_deficits" = some 0 ∧
    zeroSummary.lookup "magasins_concernes" = some 0 :=
  (c7_empty_error_iff [⟨"X", "A", "A-Z", "Z", 1⟩]).2
    (by with_unfolding_all decide)
    (by with_unfolding_all decide)
    (by with_unfolding_all decide)

theorem transform_ok {w : WideTable} {out : List LongRow}
    (h : transform_to_long w = Except.ok out) : out = longOut w := by
  unfold transform_to_long at h
  split at h
  · exact absurd h (by simp)
  · split at h
    · exact absurd h (by simp)
    · rw [Except.ok.injEq] at h
      exact h.symm

/-- C4: every long record the reshaper emits has strictly positive
quantity; no zero, negative, blank, or non-numeric cell survives. -/
theorem c4_positive_quantity (w : WideTable) (out : List LongRow)
    (h : transform_to_long w = Except.ok out) (r : LongRow) (hr : r ∈ out) :
    0 < r.quantite := by
  rw [transform_ok h] at hr
  simp only [longOut, clean_extract_eq] at hr
  obtain ⟨a, -, ha⟩ := List.mem_filterMap.mp hr
  obtain ⟨-, q, -, hq, rfl⟩ := recordOf_some ha
  exact hq

theorem c4_positive_quantity_witness :
    0 < (⟨"ITEM001", "NORTH-WH", "NORTH-WH-U", "U", 5⟩ : LongRow).quantite :=
  c4_positive_quantity
    ⟨"nomenclature", ["NORTH-WH-U"], [("ITEM001", [Cell.num 5])]⟩
    [⟨"ITEM001", "NORTH-WH", "NORTH-WH-U", "U", 5⟩]
    (by with_unfolding_all rfl)
    ⟨"ITEM001", "NORTH-WH", "NORTH-WH-U", "U", 5⟩
    (by with_unfolding_all decide)

/-- C5 counterexample: the code keeps the column "A-U\n" (the regex
dollar matches just before a trailing newline) and emits a record with
store "A\n" and kind "U", whose concatenation "A\n-U" is not the
original column name "A-U\n". -/
theorem c5_counterexample :
    transform_to_long ⟨"nomenclature", ["A-U\n"], [("ITEM001", [Cell.num 5])]⟩
      = Except.ok [⟨"ITEM001", "A\n", "A-U\n", "U", 5⟩] ∧
    (⟨"ITEM001", "A\n", "A-U\n", "U", 5⟩ : LongRow).magasin ++ "-"
        ++ (⟨"ITEM001", "A\n", "A-U\n", "U", 5⟩ : LongRow).type_donnee
      ≠ (⟨"ITEM001", "A\n", "A-U\n", "U", 5⟩ : LongRow).magasin_code := by
  constructor
  · with_unfolding_all rfl
  · with_unfolding_all decide

/-- C5 (amended): for every emitted long record whose column name does
not end in a newline, store ++ "-" ++ kind rebuilds the original column
name exactly, hyphenated store names included.  (When the name carries a
trailing newline the code still emits a record, but the stripped store
name keeps the newline after the suffix is removed, so the
concatenation differs from the column name.) -/
theorem c5_suffix_reconstruction (w : WideTable) (out : List LongRow)
    (h : transform_to_long w = Except.ok out) (r : LongRow) (hr : r ∈ out)
    (hnl : r.magasin_code.data.getLast? ≠ some '\n') :
    r.magasin ++ "-" ++ r.type_donnee = r.magasin_code := by
  rw [transform_ok h] at hr
  simp only [longOut, clean_extract_eq] at hr
  obtain ⟨a, -, ha⟩ := List.mem_filterMap.mp hr
  obtain ⟨hcol, q, -, -, rfl⟩ := recordOf_some ha
  exact store_kind_append hcol hnl

theorem c5_suffix_reconstruction_witness :
    (⟨"ITEM001", "NORTH-WH", "NORTH-WH-U", "U", 5⟩ : LongRow).magasin ++ "-"
        ++ (⟨"ITEM001", "NORTH-WH", "NORTH-WH-U", "U", 5⟩ : LongRow).type_donnee
      = (⟨"ITEM001", "NORTH-WH", "NORTH-WH-U", "U", 5⟩ : LongRow).magasin_code :=
  c5_suffix_reconstruction
    ⟨"nomenclature", ["NORTH-WH-U"], [("ITEM001", [Cell.num 5])]⟩
    [⟨"ITEM001", "NORTH-WH", "NORTH-WH-U", "U", 5⟩]
    (by with_unfolding_all rfl)
    ⟨"ITEM001", "NORTH-WH", "NORTH-WH-U", "U", 5⟩
    (by with_unfolding_all decide)
    (by with_unfolding_all decide)

/-! Counting machinery for the reshaper completeness claim. -/

theorem count_filterMap_sum [DecidableEq β] (f : α → Option β) (l : List α)
    (b : β) :
    (l.filterMap f).count b
      = (l.map (fun a => if f a = some b then 1 else 0)).sum := by
  induction l with
  | nil => rfl
  | cons a t ih =>
    cases hfa : f a with
    | none =>
      rw [List.filterMap_cons_none hfa, List.map_cons, List.sum_cons, ih,
        if_neg (by simp [hfa])]
      omega
    | some c =>
      rw [List.filterMap_cons_some hfa, List.map_cons, List.sum_cons,
        List.count_cons, ih]
      by_cases hcb : c = b
      · rw [if_pos (show (c == b) = true by simp [hcb]),
          if_pos (show f a = some b by rw [hfa, hcb])]
        omega
      · rw [if_neg (show ¬ (c == b) = true by simp [hcb]),
          if_neg (show ¬ f a = some b by simp [hfa, hcb])]
        omega

theorem count_flatMap_sum [DecidableEq β] (f : α → List β) (l : List α)
    (b : β) :
    (l.flatMap f).count b = (l.map (fun a => (f a).count b)).sum := by
  induction l with
  | nil => rfl
  | cons a t ih =>
    rw [List.flatMap_cons, List.count_append, List.map_cons, List.sum_cons, ih]

theorem sum_map_add (B : List β) (g h : β → Nat) :
    (B.map (fun b => g b + h b)).sum = (B.map g).sum + (B.map h).sum := by
  induction B with
  | nil => rfl
  | cons b t ih =>
    simp only [List.map_cons, List.sum_cons, ih]
    omega

theorem sum_map_swap (A : List α) (B : List β) (F : α → β → Nat) :
    (A.map (fun a => (B.map (fun b => F a b)).sum)).sum
      = (B.map (fun b => (A.map (fun a => F a b)).sum)).sum := by
  induction A with
  | nil => simp
  | cons a A ih =>
    simp only [List.map_cons, List.sum_cons]
    rw [sum_map_add, ih]

theorem flatMap_filterMap_swap_perm [DecidableEq γ] (A : List α) (B : List β)
    (f : α → β → Option γ) :
    List.Perm (A.flatMap (fun a => B.filterMap (fun b => f a b)))
      (B.flatMap (fun b => A.filterMap (fun a => f a b))) := by
  rw [List.perm_iff_count]
  intro c
  rw [count_flatMap_sum, count_flatMap_sum]
  simp only [count_filterMap_sum]
  exact sum_map_swap A B (fun a b => if f a b = some c then 1 else 0)

theorem longOut_eq (w : WideTable) :
    longOut w = w.store_cols.enum.flatMap (fun jc =>
      w.rows.filterMap (fun rw => recordOf rw.1 jc.2 (rw.2.getD jc.1 Cell.null))) := by
  rw [longOut, clean_extract_eq, melt, List.filterMap_flatMap]
  simp only [List.filterMap_map]
  rfl

/-- C3 counterexample: first, a wide table whose first column is named
"magasin" satisfies the claim's hypotheses yet makes the reshaper raise
(the derived store column overwrites it, then the final column selection
fails); second, the column "A\nB-U" ends in "-U" yet its valid positive
cell yields no record, because the code's regex never lets the dot cross
the interior newline. -/
theorem c3_counterexample :
    isError (transform_to_long
        ⟨"magasin", ["A-U"], [("ITEM001", [Cell.num 5])]⟩) = true ∧
    ("A\nB-U" : String) = "A\nB" ++ "-U" ∧
    transform_to_long
        ⟨"nomenclature", ["A\nB-U"], [("ITEM001", [Cell.num 5])]⟩
      = Except.ok [] := by
  refine ⟨?_, ?_, ?_⟩
  · with_unfolding_all rfl
  · with_unfolding_all rfl
  · with_unfolding_all rfl

/-- C3 (amended): on a non-empty wide table whose first column name is
none of the four names the pipeline itself creates, with at least one
column matching the code's "-U"/"-C" pattern (newline-free name ending
in "-U" or "-C", at most one trailing newline) and at least one valid
positive cell under such a column, the reshaper succeeds, and its output
is, up to order, exactly one record per valid matching cell with the
store and kind derived from the column name (the row-major spec
enumeration); all other cells produce no record and no error. -/
theorem c3_reshape_complete (w : WideTable) (hne : w.rows ≠ [])
    (hkc : ¬(w.key_col = "quantite" ∨ w.key_col = "magasin_code" ∨
      w.key_col = "magasin" ∨ w.key_col = "type_donnee"))
    (hcol : ∃ c ∈ w.store_cols, endsUC c = true)
    (hcell : specLong w ≠ []) :
    transform_to_long w = Except.ok (longOut w) ∧
      List.Perm (longOut w) (specLong w) := by
  constructor
  · unfold transform_to_long
    rw [if_neg (by simp [List.isEmpty_iff, hne]), if_neg hkc]
  · rw [longOut_eq]
    unfold specLong
    exact flatMap_filterMap_swap_perm _ _ _

theorem c3_reshape_complete_witness :
    transform_to_long
        ⟨"nomenclature", ["A-U", "PARIS"],
          [("ITEM001", [Cell.num 10, Cell.num 7]),
           ("ITEM002", [Cell.str "x", Cell.num 3])]⟩
      = Except.ok (longOut
        ⟨"nomenclature", ["A-U", "PARIS"],
          [("ITEM001", [Cell.num 10, Cell.num 7]),
           ("ITEM002", [Cell.str "x", Cell.num 3])]⟩) ∧
    List.Perm
      (longOut ⟨"nomenclature", ["A-U", "PARIS"],
        [("ITEM001", [Cell.num 10, Cell.num 7]),
         ("ITEM002", [Cell.str "x", Cell.num 3])]⟩)
      (specLong ⟨"nomenclature", ["A-U", "PARIS"],
        [("ITEM001", [Cell.num 10, Cell.num 7]),
         ("ITEM002", [Cell.str "x", Cell.num 3])]⟩) :=
  c3_reshape_complete
    ⟨"nomenclature", ["A-U", "PARIS"],
      [("ITEM001", [Cell.num 10, Cell.num 7]),
       ("ITEM002", [Cell.str "x", Cell.num 3])]⟩
    (by with_unfolding_all decide)
    (by with_unfolding_all decide)
    (by with_unfolding_all decide)
    (by with_unfolding_all decide)

/-! Counting (store, item) pairs through the outer merge, for the
outer-join uniqueness claim. -/

theorem countP_key_le_one {l : List LongRow} {m n : String}
    (hnd : (l.map (fun r => (r.magasin, r.nomenclature))).Nodup) :
    l.countP (keyMatch m n) ≤ 1 := by
  induction l with
  | nil => simp
  | cons r t ih =>
    rw [List.map_cons, List.nodup_cons] at hnd
    rw [List.countP_cons]
    by_cases hk : keyMatch m n r = true
    · have hk2 : r.magasin = m ∧ r.nomenclature = n := by
        simpa [keyMatch] using hk
      have h0 : t.countP (keyMatch m n) = 0 := by
        rw [List.countP_eq_zero]
        intro a ha hka
        have hka2 : a.magasin = m ∧ a.nomenclature = n := by
          simpa [keyMatch] using hka
        apply hnd.1
        exact List.mem_map.mpr
          ⟨a, ha, by rw [hka2.1, hka2.2, hk2.1, hk2.2]⟩
      rw [h0, if_pos hk]
    · rw [if_neg hk]
      have h2 := ih hnd.2
      omega

theorem countP_key_eq_one {l : List LongRow} {m n : String}
    (hnd : (l.map (fun r => (r.magasin, r.nomenclature))).Nodup)
    (hmem : (m, n) ∈ l.map (fun r => (r.magasin, r.nomenclature))) :
    l.countP (keyMatch m n) = 1 := by
  have hle := @countP_key_le_one l m n hnd
  have hpos : 0 < l.countP (keyMatch m n) := by
    obtain ⟨r, hr, hkey⟩ := List.mem_map.mp hmem
    have hk2 : r.magasin = m ∧ r.nomenclature = n := by
      simpa using hkey
    rw [List.countP_pos_iff]
    exact ⟨r, hr, by simp [keyMatch, hk2.1, hk2.2]⟩
  omega

theorem countP_mergeLeft (exp stock : List LongRow) (m n : String) :
    (mergeLeft exp stock).countP (dkeyMatch m n)
      = exp.countP (keyMatch m n) *
        (if stock.countP (keyMatch m n) = 0 then 1
          else stock.countP (keyMatch m n)) := by
  induction exp with
  | nil => simp [mergeLeft]
  | cons e t ih =>
    have hstep : mergeLeft (e :: t) stock =
        (if (stockMatches stock e).isEmpty then
          [(⟨e.magasin, e.nomenclature, e.quantite, 0, 0 - e.quantite⟩ : DeficitRow)]
        else (stockMatches stock e).map (fun s =>
          ⟨e.magasin, e.nomenclature, e.quantite, s.quantite, s.quantite - e.quantite⟩))
        ++ mergeLeft t stock := rfl
    rw [hstep, List.countP_append, ih, List.countP_cons]
    by_cases hk : keyMatch m n e = true
    · have hk2 : e.magasin = m ∧ e.nomenclature = n := by
        simpa [keyMatch] using hk
      have hsm : stockMatches stock e = stock.filter (keyMatch m n) := by
        unfold stockMatches keyMatch
        rw [hk2.1, hk2.2]
      rw [hsm, if_pos hk]
      by_cases hc0 : stock.countP (keyMatch m n) = 0
      · have hemp : (stock.filter (keyMatch m n)).isEmpty = true := by
          rw [List.isEmpty_iff, ← List.length_eq_zero, ← List.countP_eq_length_filter]
          exact hc0
        rw [if_pos hemp, if_pos hc0]
        have hone : List.countP (dkeyMatch m n)
            [(⟨e.magasin, e.nomenclature, e.quantite, 0, 0 - e.quantite⟩ : DeficitRow)] = 1 := by
          simp [dkeyMatch, hk2.1, hk2.2]
        rw [hone]
        ring
      · have hemp : ¬ (stock.filter (keyMatch m n)).isEmpty = true := by
          rw [List.isEmpty_iff, ← List.length_eq_zero, ← List.countP_eq_length_filter]
          exact hc0
        rw [if_neg hemp, if_neg hc0]
        have hcnt : List.countP (dkeyMatch m n)
            ((stock.filter (keyMatch m n)).map (fun s =>
              (⟨e.magasin, e.nomenclature, e.quantite, s.quantite,
                s.quantite - e.quantite⟩ : DeficitRow)))
            = stock.countP (keyMatch m n) := by
          have hall : List.countP (dkeyMatch m n)
              ((stock.filter (keyMatch m n)).map (fun s =>
                (⟨e.magasin, e.nomenclature, e.quantite, s.quantite,
                  s.quantite - e.quantite⟩ : DeficitRow)))
              = ((stock.filter (keyMatch m n)).map (fun s =>
                (⟨e.magasin, e.nomenclature, e.quantite, s.quantite,
                  s.quantite - e.quantite⟩ : DeficitRow))).length := by
            rw [List.countP_eq_length]
            intro a ha
            obtain ⟨s, -, rfl⟩ := List.mem_map.mp ha
            simp [dkeyMatch, hk2.1, hk2.2]
          rw [hall, List.length_map, ← List.countP_eq_length_filter]
        rw [hcnt]
        ring
    · have h0 : List.countP (dkeyMatch m n)
          (if (stockMatches stock e).isEmpty then
            [(⟨e.magasin, e.nomenclature, e.quantite, 0, 0 - e.quantite⟩ : DeficitRow)]
          else (stockMatches stock e).map (fun s =>
            ⟨e.magasin, e.nomenclature, e.quantite, s.quantite,
              s.quantite - e.quantite⟩)) = 0 := by
        rw [List.countP_eq_zero]
        intro a ha
        have hfields : a.magasin = e.magasin ∧ a.nomenclature = e.nomenclature := by
          by_cases hms : (stockMatches stock e).isEmpty = true
          · rw [if_pos hms] at ha
            cases List.mem_singleton.mp ha
            exact ⟨rfl, rfl⟩
          · rw [if_neg hms] at ha
            obtain ⟨s, -, rfl⟩ := List.mem_map.mp ha
            exact ⟨rfl, rfl⟩
        simp only [dkeyMatch, hfields.1, hfields.2]
        simpa [keyMatch] using hk
      rw [h0, if_neg hk]
      ring

theorem countP_mergeRight (exp stock : List LongRow) (m n : String) :
    (mergeRight exp stock).countP (dkeyMatch m n)
      = if exp.countP (keyMatch m n) = 0 then stock.countP (keyMatch m n)
        else 0 := by
  unfold mergeRight
  rw [List.countP_map, List.countP_filter]
  by_cases hE : exp.countP (keyMatch m n) = 0
  · rw [if_pos hE]
    apply List.countP_congr
    intro s hs
    rw [List.countP_eq_zero] at hE
    constructor
    · intro h
      rw [Bool.and_eq_true] at h
      have := h.1
      simp only [Function.comp, dkeyMatch] at this
      exact this
    · intro hks
      have hk2 : s.magasin = m ∧ s.nomenclature = n := by
        simpa [keyMatch] using hks
      have hany : exp.any (fun e =>
          e.magasin == s.magasin && e.nomenclature == s.nomenclature) = false := by
        rw [List.any_eq_false]
        intro e he hcontra
        apply hE e he
        have he2 : e.magasin = s.magasin ∧ e.nomenclature = s.nomenclature := by
          simpa using hcontra
        simp [keyMatch, he2.1, he2.2, hk2.1, hk2.2]
      rw [Bool.and_eq_true]
      constructor
      · simp only [Function.comp, dkeyMatch]
        exact hks
      · rw [hany]
        rfl
  · rw [if_neg hE]
    rw [List.countP_eq_zero]
    intro s hs hcontra
    rw [Bool.and_eq_true] at hcontra
    have hsk : s.magasin = m ∧ s.nomenclature = n := by
      have h1 := hcontra.1
      simp only [Function.comp, dkeyMatch] at h1
      simpa [keyMatch] using h1
    have hpos : 0 < exp.countP (keyMatch m n) := Nat.pos_of_ne_zero hE
    rw [List.countP_pos_iff] at hpos
    obtain ⟨e, he, hke⟩ := hpos
    have hk2 : e.magasin = m ∧ e.nomenclature = n := by
      simpa [keyMatch] using hke
    have hany := hcontra.2
    rw [Bool.not_eq_true'] at hany
    rw [List.any_eq_false] at hany
    have hfalse := hany e he
    have htrue : (e.magasin == s.magasin && e.nomenclature == s.nomenclature)
        = true := by
      simp [hk2.1, hk2.2, hsk.1, hsk.2]
    rw [htrue] at hfalse
    exact hfalse rfl

/-- C2 counterexample: with a duplicated (store, item, kind) triple in
the input, the pair ("A", "X") appears in the U subset yet occurs twice
in the output deficit table, so "exactly once" fails as stated. -/
theorem c2_counterexample :
    analyze_deficits [⟨"X", "A", "A-U", "U", 1⟩, ⟨"X", "A", "A-U", "U", 2⟩]
        = Except.ok ([⟨"A", "X", 1, 0, 0 - 1⟩, ⟨"A", "X", 2, 0, 0 - 2⟩],
            calculate_deficit_stats
              [⟨"A", "X", 1, 0, 0 - 1⟩, ⟨"A", "X", 2, 0, 0 - 2⟩]) ∧
    ("A", "X") ∈ (([⟨"X", "A", "A-U", "U", 1⟩, ⟨"X", "A", "A-U", "U", 2⟩]
        : List LongRow).filter (fun r => r.type_donnee == "U")).map
          (fun r => (r.magasin, r.nomenclature)) ∧
    ([⟨"A", "X", 1, 0, 0 - 1⟩, ⟨"A", "X", 2, 0, 0 - 2⟩]
        : List DeficitRow).countP (dkeyMatch "A" "X") = 2 := by
  refine ⟨?_, ?_, ?_⟩
  · with_unfolding_all rfl
  · with_unfolding_all decide
  · with_unfolding_all decide

/-- C2 (amended): when no (store, item) pair repeats inside the U subset
nor inside the C subset, every pair present in either subset appears
exactly once as a row of the output deficit table. -/
theorem c2_outer_join_exactly_once (l : List LongRow)
    (hU : ((l.filter (fun r => r.type_donnee == "U")).map
      (fun r => (r.magasin, r.nomenclature))).Nodup)
    (hC : ((l.filter (fun r => r.type_donnee == "C")).map
      (fun r => (r.magasin, r.nomenclature))).Nodup)
    (d : List DeficitRow) (s : List (String × Rat)) (m n : String)
    (h : analyze_deficits l = Except.ok (d, s))
    (hmn : (m, n) ∈ (l.filter (fun r => r.type_donnee == "U")).map
        (fun r => (r.magasin, r.nomenclature)) ∨
      (m, n) ∈ (l.filter (fun r => r.type_donnee == "C")).map
        (fun r => (r.magasin, r.nomenclature))) :
    d.countP (dkeyMatch m n) = 1 := by
  rcases analyze_ok_cases h with ⟨rfl, -, hUe, hCe⟩ | ⟨rfl, -⟩
  · rw [List.isEmpty_iff] at hUe hCe
    rcases hmn with hm | hm
    · rw [hUe] at hm
      cases hm
    · rw [hCe] at hm
      cases hm
  · unfold merge_exploitation_stock
    rw [(isort_perm _ _).countP_eq, List.countP_append,
      countP_mergeLeft, countP_mergeRight]
    have hUle := @countP_key_le_one
      (l.filter (fun r => r.type_donnee == "U")) m n hU
    have hCle := @countP_key_le_one
      (l.filter (fun r => r.type_donnee == "C")) m n hC
    have hdis : (l.filter (fun r => r.type_donnee == "U")).countP
          (keyMatch m n) = 1 ∨
        (l.filter (fun r => r.type_donnee == "C")).countP (keyMatch m n) = 1 := by
      rcases hmn with hm | hm
      · exact Or.inl (countP_key_eq_one hU hm)
      · exact Or.inr (countP_key_eq_one hC hm)
    rcases Nat.le_one_iff_eq_zero_or_eq_one.mp hUle with hu | hu <;>
      rcases Nat.le_one_iff_eq_zero_or_eq_one.mp hCle with hc | hc <;>
      rw [hu, hc] <;> simp_all

theorem c2_outer_join_exactly_once_witness :
    ([⟨"A", "X", 5, 3, 3 - 5⟩] : List DeficitRow).countP (dkeyMatch "A" "X")
      = 1 :=
  c2_outer_join_exactly_once
    [⟨"X", "A", "A-U", "U", 5⟩, ⟨"X", "A", "A-C", "C", 3⟩]
    (by with_unfolding_all decide)
    (by with_unfolding_all decide)
    [⟨"A", "X", 5, 3, 3 - 5⟩]
    (calculate_deficit_stats [⟨"A", "X", 5, 3, 3 - 5⟩])
    "A" "X"
    (by with_unfolding_all rfl)
    (Or.inl (by with_unfolding_all decide))

set_option maxRecDepth 10000

/-- C8 counterexample: for a store with total exploitation 1 and total
stock 2, the computed ratio is the 3-decimal rounding 333/1000, which is
not exactly 1 / (2 + 1), so "equals the division exactly" fails. -/
theorem c8_counterexample :
    (get_magasin_summary [⟨"A", "X", 1, 2, 1⟩]).map
        MagasinSummaryRow.ratio_exp_stock = [(333 : Rat) / 1000] ∧
    (([⟨"A", "X", 1, 2, 1⟩] : List DeficitRow).map
        DeficitRow.quantite_exploitation).sum = 1 ∧
    (([⟨"A", "X", 1, 2, 1⟩] : List DeficitRow).map
        DeficitRow.quantite_stock).sum = 2 ∧
    (333 : Rat) / 1000 ≠ 1 / (2 + 1) := by
  refine ⟨?_, ?_, ?_, ?_⟩
  · with_unfolding_all decide
  · with_unfolding_all decide
  · with_unfolding_all decide
  · with_unfolding_all decide

/-- C8 (amended): every per-store summary row's ratio equals the store's
rounded total exploitation divided by (rounded total stock + 1), rounded
to three decimal places — the division with the +1 smoothing constant
composed with the rounding the code applies, rather than the exact
quotient. -/
theorem c8_ratio_smoothed (rows : List DeficitRow) (r : MagasinSummaryRow)
    (hr : r ∈ get_magasin_summary rows) :
    r.ratio_exp_stock = roundTo 3
      (roundTo 2 (((rows.filter (fun x => x.magasin == r.magasin)).map
          DeficitRow.quantite_exploitation).sum)
        / (roundTo 2 (((rows.filter (fun x => x.magasin == r.magasin)).map
          DeficitRow.quantite_stock).sum) + 1)) := by
  simp only [get_magasin_summary] at hr
  have hr2 := mem_isort.mp hr
  obtain ⟨mName, -, rfl⟩ := List.mem_map.mp hr2
  rfl

theorem c8_ratio_smoothed_witness :
    (magasinRow [⟨"A", "X", 1, 2, 1⟩] "A").ratio_exp_stock = roundTo 3
      (roundTo 2 ((([⟨"A", "X", 1, 2, 1⟩] : List DeficitRow).filter
          (fun x => x.magasin == (magasinRow [⟨"A", "X", 1, 2, 1⟩] "A").magasin)).map
          DeficitRow.quantite_exploitation).sum
        / (roundTo 2 ((([⟨"A", "X", 1, 2, 1⟩] : List DeficitRow).filter
          (fun x => x.magasin == (magasinRow [⟨"A", "X", 1, 2, 1⟩] "A").magasin)).map
          DeficitRow.quantite_stock).sum + 1)) :=
  c8_ratio_smoothed [⟨"A", "X", 1, 2, 1⟩]
    (magasinRow [⟨"A", "X", 1, 2, 1⟩] "A")
    (by with_unfolding_all decide)

/-- C9 counterexample: on an input holding only a kind-Z row, the engine
returns the empty zero-count result, while on the input restricted to its
U and C rows (which is empty) it raises instead — the two results are not
equal as the claim states. -/
theorem c9_counterexample :
    isError (analyze_deficits
        (restrictUC [⟨"X", "A", "A-Z", "Z", 1⟩])) = true ∧
    analyze_deficits [⟨"X", "A", "A-Z", "Z", 1⟩]
      = Except.ok ([], zeroSummary) := by
  constructor
  · with_unfolding_all rfl
  · with_unfolding_all rfl

/-- C9 (amended): rows of kind other than U and C contribute nothing —
whenever the restriction to U and C rows is non-empty the engine returns
the same result on it as on the full input; and a non-empty input whose
restriction is empty yields the empty zero-count result, not an error. -/
theorem c9_other_kinds_ignored (l : List LongRow) :
    (restrictUC l ≠ [] →
      analyze_deficits (restrictUC l) = analyze_deficits l) ∧
    (l ≠ [] → restrictUC l = [] →
      analyze_deficits l = Except.ok ([], zeroSummary)) := by
  constructor
  · intro hne
    have hne' : l ≠ [] := by
      intro h0
      apply hne
      rw [h0]
      rfl
    have hfU : (restrictUC l).filter (fun r => r.type_donnee == "U")
        = l.filter (fun r => r.type_donnee == "U") := by
      unfold restrictUC
      rw [List.filter_filter]
      apply List.filter_congr
      intro a ha
      cases hu : (a.type_donnee == "U") <;> simp [hu]
    have hfC : (restrictUC l).filter (fun r => r.type_donnee == "C")
        = l.filter (fun r => r.type_donnee == "C") := by
      unfold restrictUC
      rw [List.filter_filter]
      apply List.filter_congr
      intro a ha
      cases hc : (a.type_donnee == "C") <;> simp [hc]
    have hboth : ((l.filter (fun r => r.type_donnee == "U")).isEmpty &&
        (l.filter (fun r => r.type_donnee == "C")).isEmpty) = false := by
      obtain ⟨a, ha⟩ := List.exists_mem_of_ne_nil (restrictUC l) hne
      have ha2 := List.mem_filter.mp ha
      have ha22 := ha2.2
      rw [Bool.or_eq_true] at ha22
      rcases ha22 with h | h
      · have hmem : a ∈ l.filter (fun r => r.type_donnee == "U") :=
          List.mem_filter.mpr ⟨ha2.1, h⟩
        have he : (l.filter (fun r => r.type_donnee == "U")).isEmpty = false := by
          rw [List.isEmpty_eq_false]
          exact List.ne_nil_of_mem hmem
        rw [he]
        rfl
      · have hmem : a ∈ l.filter (fun r => r.type_donnee == "C") :=
          List.mem_filter.mpr ⟨ha2.1, h⟩
        have he : (l.filter (fun r => r.type_donnee == "C")).isEmpty = false := by
          rw [List.isEmpty_eq_false]
          exact List.ne_nil_of_mem hmem
        rw [he]
        simp
    have hLHS : analyze_deficits (restrictUC l) = Except.ok
        (merge_exploitation_stock
          (l.filter (fun r => r.type_donnee == "U"))
          (l.filter (fun r => r.type_donnee == "C")),
        calculate_deficit_stats
          (merge_exploitation_stock
            (l.filter (fun r => r.type_donnee == "U"))
            (l.filter (fun r => r.type_donnee == "C")))) := by
      unfold analyze_deficits
      rw [if_neg (by simp [List.isEmpty_iff, hne])]
      rw [if_neg (by rw [hfU, hfC]; simp [hboth])]
      rw [hfU, hfC]
    have hRHS : analyze_deficits l = Except.ok
        (merge_exploitation_stock
          (l.filter (fun r => r.type_donnee == "U"))
          (l.filter (fun r => r.type_donnee == "C")),
        calculate_deficit_stats
          (merge_exploitation_stock
            (l.filter (fun r => r.type_donnee == "U"))
            (l.filter (fun r => r.type_donnee == "C")))) := by
      unfold analyze_deficits
      rw [if_neg (by simp [List.isEmpty_iff, hne'])]
      rw [if_neg (by simp [hboth])]
    rw [hLHS, hRHS]
  · intro hne hre
    have hU0 : l.filter (fun r => r.type_donnee == "U") = [] := by
      rw [List.filter_eq_nil_iff]
      intro a ha hcontra
      have := List.filter_eq_nil_iff.mp hre a ha
      simp_all
    have hC0 : l.filter (fun r => r.type_donnee == "C") = [] := by
      rw [List.filter_eq_nil_iff]
      intro a ha hcontra
      have := List.filter_eq_nil_iff.mp hre a ha
      simp_all
    unfold analyze_deficits
    rw [if_neg (by simp [List.isEmpty_iff, hne]),
      if_pos (by rw [hU0, hC0]; rfl)]

theorem c9_other_kinds_ignored_witness :
    analyze_deficits
        (restrictUC [⟨"X", "A", "A-U", "U", 5⟩, ⟨"Y", "B", "B-Z", "Z", 1⟩])
      = analyze_deficits
        [⟨"X", "A", "A-U", "U", 5⟩, ⟨"Y", "B", "B-Z", "Z", 1⟩] ∧
    analyze_deficits [⟨"X", "A", "A-Z", "Z", 7⟩]
      = Except.ok ([], zeroSummary) :=
  ⟨(c9_other_kinds_ignored
      [⟨"X", "A", "A-U", "U", 5⟩, ⟨"Y", "B", "B-Z", "Z", 1⟩]).1
      (by with_unfolding_all decide),
   (c9_other_kinds_ignored [⟨"X", "A", "A-Z", "Z", 7⟩]).2
      (by with_unfolding_all decide)
      (by with_unfolding_all rfl)⟩

end MaterialManager
